import Mathlib

/-!
Verification of the KXDocRE context-enrichment pipeline
(`src/KXDocRE/context/onehop.py` and `src/KXDocRE/context/threehop.py`).

The two Python scripts are shallowly embedded here.  Python dicts are
modelled as insertion-ordered association lists (`pget` / `pset` /
`pupdate` / `pkeys`), the two remote services are modelled as oracles
passed to the driver (the graph-query endpoint as `Nat → Option result`,
one slot per pair batch, where `none` stands for a non-success HTTP
status, and the label-lookup endpoint as `List String → LabelResponse`),
and every externally visible action of the driver — network requests and
rate-limit sleeps — is recorded in an event trace.  An uncaught Python
exception is modelled by `Option`/the `crashed` flag of `RunResult`.
-/

/-- Lookup in an insertion-ordered association list, the model of
Python `d[k]` / `k in d`: the first entry with the given key wins. -/
def pget {α β : Type} [DecidableEq α] : List (α × β) → α → Option β
  | [], _ => none
  | (k, v) :: d, k0 => if k0 = k then some v else pget d k0

/-- Update in an insertion-ordered association list, the model of
Python `d[k] = v`: an existing key keeps its position, a new key is
appended at the end. -/
def pset {α β : Type} [DecidableEq α] : List (α × β) → α → β → List (α × β)
  | [], k0, v0 => [(k0, v0)]
  | (k, v) :: d, k0, v0 => if k0 = k then (k0, v0) :: d else (k, v) :: pset d k0 v0

/-- The key list of the association list, the model of Python `d.keys()`
(insertion order). -/
def pkeys {α β : Type} (d : List (α × β)) : List α :=
  d.map Prod.fst

/-- Model of Python `d.update(other)`. -/
def pupdate {α β : Type} [DecidableEq α] (d other : List (α × β)) : List (α × β) :=
  other.foldl (fun acc kv => pset acc kv.1 kv.2) d

/-- Auxiliary accumulator for `firstSeen`. -/
def firstSeenAux {α : Type} [DecidableEq α] : List α → List α → List α
  | [], acc => acc
  | x :: xs, acc => if x ∈ acc then firstSeenAux xs acc else firstSeenAux xs (acc ++ [x])

/-- The distinct elements of a list in order of first occurrence.  This is
both the key order of a Python dict built by repeated insertion and our
deterministic model of Python `list(set(xs))` (whose real order is
unspecified; the claims below depend only on membership and distinctness). -/
def firstSeen {α : Type} [DecidableEq α] (xs : List α) : List α :=
  firstSeenAux xs []

/-- Model of Python `math.ceil(n / b)` for the batch counts. -/
def ceilDiv (n b : Nat) : Nat :=
  (n + b - 1) / b

/-- The sub-batches `l[i*b:(i+1)*b]` for `i in range(math.ceil(len(l)/b))`,
exactly the slicing loops the two drivers use for label batching. -/
def labelChunks {α : Type} (l : List α) (b : Nat) : List (List α) :=
  (List.range (ceilDiv l.length b)).map (fun i => (l.drop (i * b)).take b)

/-- Auxiliary accumulator for `pySplit` (structural recursion over the
character list, so that concrete runs evaluate inside the kernel). -/
def pySplitAux (c : Char) : List Char → List Char → List (List Char)
  | [], cur => [cur.reverse]
  | x :: xs, cur =>
    if x = c then cur.reverse :: pySplitAux c xs [] else pySplitAux c xs (x :: cur)

/-- Python `s.split(c)` for a one-character separator: always at least one
(possibly empty) segment, empty segments between adjacent separators kept. -/
def pySplit (s : String) (c : Char) : List String :=
  (pySplitAux c s.data []).map String.mk

/-- Python `s.strip()`: leading and trailing whitespace removed. -/
def pyStrip (s : String) : String :=
  String.mk (((s.data.dropWhile Char.isWhitespace).reverse.dropWhile Char.isWhitespace).reverse)

/-- Python `s.upper()` (the identifiers here are ASCII). -/
def pyUpper (s : String) : String :=
  String.mk (s.data.map Char.toUpper)

/-- Python `sep.join(xs)`. -/
def pyJoin (sep : String) : List String → String
  | [] => ""
  | [x] => x
  | x :: y :: xs => x ++ sep ++ pyJoin sep (y :: xs)

/-- `value.split("/")[-1]`: the trailing segment of a resource URI. -/
def lastSegment (s : String) : String :=
  (pySplit s '/').getLastD ""

/-- One externally visible action of the pipeline: a graph-endpoint
request (carrying the VALUES clause), a label-endpoint request (carrying
the requested ids), or a rate-limit sleep.  Durations are in tenths of a
second, so `sleep 15` is the source's `time.sleep(1.5)` and `sleep 50`
its `time.sleep(5)`. -/
inductive Event where
  | sparqlRequest (clause : String)
  | labelRequest (ids : List String)
  | sleep (tenths : Nat)
deriving DecidableEq, Repr

/-- An entity record of the label-lookup JSON response:
`enLabel = some v` models `entity["labels"]["en"]["value"] = v`, `none`
models a missing `labels`/`en` entry. -/
structure LabelEntityData where
  enLabel : Option String
deriving DecidableEq, Repr

/-- A response of the label-lookup endpoint: HTTP status, whether
`response.text.strip()` is empty, and the parsed `entities` mapping
(`none` models a JSON body without the `entities` key). -/
structure LabelResponse where
  status_code : Nat
  text_blank : Bool
  entities : Option (List (String × LabelEntityData))
deriving DecidableEq, Repr

/-- The per-id branch shared by both `find_property_labels_batch`
variants: the English label when the response has one for the id, the id
itself otherwise. -/
def resolveOne (ents : List (String × LabelEntityData)) (property_id : String) : String :=
  match pget ents property_id with
  | some entity =>
    match entity.enLabel with
    | some v => v
    | none => property_id
  | none => property_id

/-- The `for property_id in property_ids` loop of
`find_property_labels_batch` over a response that does contain the
`entities` mapping. -/
def resolve_ids (ents : List (String × LabelEntityData)) (property_ids : List String) :
    List (String × String) :=
  property_ids.foldl (fun labels property_id => pset labels property_id (resolveOne ents property_id)) []

/-- The identity-fallback loop `labels[property_id] = property_id` used by
both variants for malformed responses and non-success statuses. -/
def identity_labels (property_ids : List String) : List (String × String) :=
  property_ids.foldl (fun labels property_id => pset labels property_id property_id) []

/-- The VALUES clause both `batch_sparql_query` functions build with
`" ".join(f"(wd:{e1.strip()} wd:{e2.strip()})" for e1, e2 in entity_pairs)`;
`none` models the uncaught `ValueError` raised when a pair does not unpack
into exactly two fields. -/
def values_entry : List String → Option String
  | [e1, e2] => some ("(wd:" ++ pyStrip e1 ++ " wd:" ++ pyStrip e2 ++ ")")
  | _ => none

/-- See `values_entry`; the whole generator, failing — like the Python
generator — as soon as one pair is malformed. -/
def values_entries : List (List String) → Option (List String)
  | [] => some []
  | p :: rest =>
    match values_entry p with
    | none => none
    | some s =>
      match values_entries rest with
      | none => none
      | some l => some (s :: l)

/-- See `values_entries`; joins the entries with spaces. -/
def values_clause (entity_pairs : List (List String)) : Option String :=
  (values_entries entity_pairs).map (pyJoin " ")

/-- The result of one driver run: the final contents of the output
artifact (one string per line), the trace of requests and sleeps, and
whether an uncaught exception terminated the run. -/
structure RunResult where
  output : List String
  events : List Event
  crashed : Bool
deriving DecidableEq, Repr

/-- One step of the grouping loop both drivers run over
`result["results"]["bindings"]`: `if key not in d: d[key] = []` followed by
`d[key].append(val)`. -/
def pyGroupStep {α β γ : Type} [DecidableEq α] (key : γ → α) (val : γ → β)
    (d : List (α × List β)) (b : γ) : List (α × List β) :=
  pset d (key b) ((pget d (key b)).getD [] ++ [val b])

/-- The grouping loop itself: a Python dict from keys to the list of
values appended in arrival order. -/
def pyGroup {α β γ : Type} [DecidableEq α] (key : γ → α) (val : γ → β)
    (bs : List γ) : List (α × List β) :=
  bs.foldl (pyGroupStep key val) []

/-- The input read both drivers perform:
`[line.strip().split("\t") for line in f.readlines()]`. -/
def read_entity_pairs (input_lines : List String) : List (List String) :=
  input_lines.map (fun line => pySplit (pyStrip line) '\t')

namespace Onehop

/-- One element of `result["results"]["bindings"]` for the 1-hop query:
the raw URI values of the three selected variables. -/
structure SparqlBinding1 where
  entity1 : String
  entity2 : String
  property : String
deriving DecidableEq, Repr

/-- The parsed JSON result of a successful 1-hop query. -/
structure SparqlResult1 where
  bindings : List SparqlBinding1
deriving DecidableEq, Repr

/-- `onehop.py` `find_property_labels_batch`: always issues the lookup
request (no empty-batch guard in this variant), then calls
`response.json()` on a 200 status with no blank-body guard — on a blank
200 body `json()` raises `JSONDecodeError`, modelled by `none` in the
second component; otherwise it builds the label dict, with non-200
statuses and responses without `entities` falling back to the id for
every requested id. -/
def find_property_labels_batch (property_ids : List String) (response : LabelResponse) :
    List Event × Option (List (String × String)) :=
  ([Event.labelRequest property_ids],
    if response.status_code = 200 then
      if response.text_blank then none
      else
        some (match response.entities with
          | some ents => resolve_ids ents property_ids
          | none => identity_labels property_ids)
    else some (identity_labels property_ids))

/-- `onehop.py` `batch_sparql_query`: builds the VALUES clause (raising —
`none` — when a pair does not unpack into two fields), issues the query,
and on a non-success status sleeps 5 seconds and returns `None`.  The
`response` argument is the endpoint oracle: `none` models a non-200
status. -/
def batch_sparql_query (entity_pairs : List (List String)) (response : Option SparqlResult1) :
    Option (List Event × Option SparqlResult1) :=
  match values_clause entity_pairs with
  | none => none
  | some clause =>
    match response with
    | some result => some ([Event.sparqlRequest clause], some result)
    | none => some ([Event.sparqlRequest clause, Event.sleep 50], none)

/-- The grouping key of the 1-hop aggregation loop:
`(binding["entity1"]["value"].split("/")[-1], binding["entity2"]["value"].split("/")[-1])`. -/
def key1 (b : SparqlBinding1) : String × String :=
  (lastSegment b.entity1, lastSegment b.entity2)

/-- The value appended per binding:
`binding["property"]["value"].split("/")[-1]`. -/
def prop1 (b : SparqlBinding1) : String :=
  lastSegment b.property

/-- `[property_id for relations in entity_relations.values() for property_id in relations]`
— the full, non-deduplicated relation-code list. -/
def all_property_ids (entity_relations : List ((String × String) × List String)) : List String :=
  entity_relations.flatMap (fun kv => kv.2)

/-- The label-fetch loop of `process_entity_pairs`: one
`find_property_labels_batch` call per `label_batch_size` slice of the id
list, updating the accumulated dict and sleeping 1.5 s after every
sub-batch.  A `JSONDecodeError` inside a call (second component `none`)
aborts the loop: the events up to and including the raising request are
kept, no sleep follows the raising call, and the remaining slices never
run. -/
def fetch_labels (ids : List String) (label_batch_size : Nat)
    (lookup : List String → LabelResponse) : List Event × Option (List (String × String)) :=
  (labelChunks ids label_batch_size).foldl
    (fun acc batch =>
      match acc.2 with
      | none => acc
      | some labels =>
        match find_property_labels_batch batch (lookup batch) with
        | (revs, none) => (acc.1 ++ revs, none)
        | (revs, some batch_labels) =>
          (acc.1 ++ revs ++ [Event.sleep 15], some (pupdate labels batch_labels)))
    ([], some [])

/-- The write loop of `process_entity_pairs`: one line per entity pair,
labels joined with `$`, an id absent from the dict replaced by the
literal `"No Relation"`. -/
def output_lines (entity_relations : List ((String × String) × List String))
    (property_labels : List (String × String)) : List String :=
  entity_relations.map (fun kv =>
    kv.1.1 ++ "#" ++ kv.1.2 ++ "\t" ++
      pyJoin "$" (kv.2.map (fun property_id => (pget property_labels property_id).getD "No Relation")))

/-- One iteration of the batch loop of `process_entity_pairs`: query,
aggregate, fetch labels, write, then the unconditional 1.5 s pause.
`Except.error bevs` models an uncaught exception after this batch
performed the events `bevs`: the `ValueError` from `batch_sparql_query`
(raised before any request, so `bevs = []`) or the `JSONDecodeError`
from the label-fetch loop. -/
def process_batch (batch : List (List String)) (response : Option SparqlResult1)
    (label_batch_size : Nat) (lookup : List String → LabelResponse) :
    Except (List Event) (List String × List Event) :=
  match batch_sparql_query batch response with
  | none => Except.error []
  | some (events, none) => Except.ok ([], events ++ [Event.sleep 15])
  | some (events, some result) =>
    let entity_relations := pyGroup key1 prop1 result.bindings
    match fetch_labels (all_property_ids entity_relations) label_batch_size lookup with
    | (fevs, none) => Except.error (events ++ fevs)
    | (fevs, some property_labels) =>
      Except.ok (output_lines entity_relations property_labels,
        events ++ fevs ++ [Event.sleep 15])

/-- The batch loop of `process_entity_pairs` over the remaining batch
indices, threading the output artifact and the event trace; stops with
`crashed = true` when a batch raises, keeping the events the raising
batch performed before the exception. -/
def run_batches (entity_pairs : List (List String)) (batch_size label_batch_size : Nat)
    (sparql : Nat → Option SparqlResult1) (lookup : List String → LabelResponse) :
    List Nat → List String → List Event → RunResult
  | [], out, evs => { output := out, events := evs, crashed := false }
  | i :: rest, out, evs =>
    match process_batch ((entity_pairs.drop (i * batch_size)).take batch_size) (sparql i)
        label_batch_size lookup with
    | Except.error bevs => { output := out, events := evs ++ bevs, crashed := true }
    | Except.ok (lines, bevs) =>
      run_batches entity_pairs batch_size label_batch_size sparql lookup rest
        (out ++ lines) (evs ++ bevs)

/-- `onehop.py` `process_entity_pairs`: reads the input (one
`line.strip().split("\t")` per line), slices it into
`math.ceil(n / batch_size)` batches and runs the batch loop.
`output_file` is the current contents of the output artifact — the file
is opened in append mode (`"a+"`), so the run only ever extends it. -/
def process_entity_pairs (input_lines : List String) (output_file : List String)
    (batch_size label_batch_size : Nat) (sparql : Nat → Option SparqlResult1)
    (lookup : List String → LabelResponse) : RunResult :=
  run_batches (read_entity_pairs input_lines) batch_size label_batch_size sparql lookup
    (List.range (ceilDiv (read_entity_pairs input_lines).length batch_size)) output_file []

end Onehop

namespace Threehop

/-- One element of `result["results"]["bindings"]` for the 4-hop query.
The source reads every variable with `binding.get(var, {}).get("value", "")`,
so a missing variable yields `""`; the fields are therefore `Option`s and
`getD ""` is applied at every use. -/
structure SparqlBinding4 where
  entity1 : Option String
  entity2 : Option String
  relation1 : Option String
  relation2 : Option String
  relation3 : Option String
  relation4 : Option String
  x : Option String
  y : Option String
  z : Option String
deriving DecidableEq, Repr

/-- The parsed JSON result of a successful 4-hop query. -/
structure SparqlResult4 where
  bindings : List SparqlBinding4
deriving DecidableEq, Repr

/-- One aggregated 4-hop path: the dict the aggregation loop appends per
binding (`relation1`, `intermediate_x`, …, `relation4`). -/
structure PathBinding4 where
  relation1 : String
  intermediate_x : String
  relation2 : String
  intermediate_y : String
  relation3 : String
  intermediate_z : String
  relation4 : String
deriving DecidableEq, Repr

/-- `threehop.py` `find_property_labels_batch`: unlike the 1-hop variant
it short-circuits on an empty id list without issuing a request, and it
also treats a 200 response with a blank body as identity fallback. -/
def find_property_labels_batch (property_ids : List String) (response : LabelResponse) :
    List Event × List (String × String) :=
  if property_ids.isEmpty then ([], [])
  else
    ([Event.labelRequest property_ids],
      if response.status_code = 200 then
        if response.text_blank then identity_labels property_ids
        else
          match response.entities with
          | some ents => resolve_ids ents property_ids
          | none => identity_labels property_ids
      else identity_labels property_ids)

/-- `threehop.py` `batch_sparql_query`: same VALUES-clause construction
(and the same uncaught `ValueError` on a malformed pair), same non-200
handling (sleep 5 s, return `None`); only the query template differs. -/
def batch_sparql_query (entity_pairs : List (List String)) (response : Option SparqlResult4) :
    Option (List Event × Option SparqlResult4) :=
  match values_clause entity_pairs with
  | none => none
  | some clause =>
    match response with
    | some result => some ([Event.sparqlRequest clause], some result)
    | none => some ([Event.sparqlRequest clause, Event.sleep 50], none)

/-- `value.split("/")[-1].split("-")[0].upper()` — the normalization of
the intermediate-entity values `x`, `y`, `z`. -/
def normIntermediate (s : String) : String :=
  pyUpper ((pySplit (lastSegment s) '-').headD "")

/-- The grouping key of the 4-hop aggregation loop. -/
def key4 (b : SparqlBinding4) : String × String :=
  (lastSegment (b.entity1.getD ""), lastSegment (b.entity2.getD ""))

/-- The record appended per binding by the 4-hop aggregation loop. -/
def path4 (b : SparqlBinding4) : PathBinding4 :=
  { relation1 := lastSegment (b.relation1.getD "")
    intermediate_x := normIntermediate (b.x.getD "")
    relation2 := lastSegment (b.relation2.getD "")
    intermediate_y := normIntermediate (b.y.getD "")
    relation3 := lastSegment (b.relation3.getD "")
    intermediate_z := normIntermediate (b.z.getD "")
    relation4 := lastSegment (b.relation4.getD "") }

/-- All aggregated paths in pair order, the iteration
`for relations in entity_relations.values() for relation in relations`. -/
def pathBindings (entity_relations : List ((String × String) × List PathBinding4)) :
    List PathBinding4 :=
  entity_relations.flatMap (fun kv => kv.2)

/-- The full, non-deduplicated relation-code list
(`relation1` of every path, then `relation2` of every path, …). -/
def all_relations (entity_relations : List ((String × String) × List PathBinding4)) :
    List String :=
  (pathBindings entity_relations).map PathBinding4.relation1 ++
    (pathBindings entity_relations).map PathBinding4.relation2 ++
    (pathBindings entity_relations).map PathBinding4.relation3 ++
    (pathBindings entity_relations).map PathBinding4.relation4

/-- The full, non-deduplicated intermediate-entity list. -/
def all_intermediate_entities (entity_relations : List ((String × String) × List PathBinding4)) :
    List String :=
  (pathBindings entity_relations).map PathBinding4.intermediate_x ++
    (pathBindings entity_relations).map PathBinding4.intermediate_y ++
    (pathBindings entity_relations).map PathBinding4.intermediate_z

/-- `list(set(all_relations))` — deduplicated, modelled in first-seen
order (the Python order is unspecified). -/
def unique_relations (entity_relations : List ((String × String) × List PathBinding4)) :
    List String :=
  firstSeen (all_relations entity_relations)

/-- `list(set(all_intermediate_entities))` — deduplicated. -/
def unique_entities (entity_relations : List ((String × String) × List PathBinding4)) :
    List String :=
  firstSeen (all_intermediate_entities entity_relations)

/-- The label-fetch loop (run once for relation codes and once for
intermediate-entity codes): one `find_property_labels_batch` call per
slice, 1.5 s sleep after every sub-batch. -/
def fetch_labels (ids : List String) (label_batch_size : Nat)
    (lookup : List String → LabelResponse) : List Event × List (String × String) :=
  (labelChunks ids label_batch_size).foldl
    (fun acc batch =>
      let r := find_property_labels_batch batch (lookup batch)
      (acc.1 ++ r.1 ++ [Event.sleep 15], pupdate acc.2 r.2))
    ([], [])

/-- The write loop of `process_entity_pairs`: one line per aggregated
path, every code replaced by `labels.get(code, code)` — the fallback is
the code itself in this variant. -/
def output_lines (entity_relations : List ((String × String) × List PathBinding4))
    (property_labels entity_labels : List (String × String)) : List String :=
  entity_relations.flatMap (fun kv =>
    kv.2.map (fun relation =>
      kv.1.1 ++ "#" ++ kv.1.2 ++ "\t" ++
        (pget property_labels relation.relation1).getD relation.relation1 ++ "#" ++
        (pget entity_labels relation.intermediate_x).getD relation.intermediate_x ++ "#" ++
        (pget property_labels relation.relation2).getD relation.relation2 ++ "#" ++
        (pget entity_labels relation.intermediate_y).getD relation.intermediate_y ++ "#" ++
        (pget property_labels relation.relation3).getD relation.relation3 ++ "#" ++
        (pget entity_labels relation.intermediate_z).getD relation.intermediate_z ++ "#" ++
        (pget property_labels relation.relation4).getD relation.relation4))

/-- One iteration of the batch loop: query, aggregate, deduplicate, fetch
relation labels then entity labels, write, unconditional 1.5 s pause. -/
def process_batch (batch : List (List String)) (response : Option SparqlResult4)
    (label_batch_size : Nat) (lookup : List String → LabelResponse) :
    Option (List String × List Event) :=
  match batch_sparql_query batch response with
  | none => none
  | some (events, none) => some ([], events ++ [Event.sleep 15])
  | some (events, some result) =>
    let entity_relations := pyGroup key4 path4 result.bindings
    let fetched_rel := fetch_labels (unique_relations entity_relations) label_batch_size lookup
    let fetched_ent := fetch_labels (unique_entities entity_relations) label_batch_size lookup
    some (output_lines entity_relations fetched_rel.2 fetched_ent.2,
      events ++ fetched_rel.1 ++ fetched_ent.1 ++ [Event.sleep 15])

/-- The batch loop over the remaining batch indices (see the 1-hop
variant; identical structure). -/
def run_batches (entity_pairs : List (List String)) (batch_size label_batch_size : Nat)
    (sparql : Nat → Option SparqlResult4) (lookup : List String → LabelResponse) :
    List Nat → List String → List Event → RunResult
  | [], out, evs => { output := out, events := evs, crashed := false }
  | i :: rest, out, evs =>
    match process_batch ((entity_pairs.drop (i * batch_size)).take batch_size) (sparql i)
        label_batch_size lookup with
    | none => { output := out, events := evs, crashed := true }
    | some (lines, bevs) =>
      run_batches entity_pairs batch_size label_batch_size sparql lookup rest
        (out ++ lines) (evs ++ bevs)

/-- `threehop.py` `process_entity_pairs`; the output artifact is opened in
append mode (`"a"`), so `output_file` — its current contents — is only
ever extended. -/
def process_entity_pairs (input_lines : List String) (output_file : List String)
    (batch_size label_batch_size : Nat) (sparql : Nat → Option SparqlResult4)
    (lookup : List String → LabelResponse) : RunResult :=
  run_batches (read_entity_pairs input_lines) batch_size label_batch_size sparql lookup
    (List.range (ceilDiv (read_entity_pairs input_lines).length batch_size)) output_file []

end Threehop


section Fixtures

/-- Concrete graph-endpoint mock of the spec round-trip scenario: one
binding connecting Q1 to Q2 via P31, nothing for (Q3, Q4). -/
def sparqlC1 : Nat → Option Onehop.SparqlResult1 := fun _ =>
  some { bindings := [{ entity1 := "http://www.wikidata.org/entity/Q1",
                        entity2 := "http://www.wikidata.org/entity/Q2",
                        property := "http://www.wikidata.org/prop/direct/P31" }] }

/-- Concrete label-lookup mock mapping P31 to "instance of". -/
def lookupC1 : List String → LabelResponse := fun _ =>
  { status_code := 200, text_blank := false,
    entities := some [("P31", { enLabel := some "instance of" })] }

/-- A plain HTTP 500 lookup response. -/
def resp500 : LabelResponse :=
  { status_code := 500, text_blank := false, entities := none }

/-- A label-lookup endpoint that always answers HTTP 500. -/
def lookup500 : List String → LabelResponse := fun _ => resp500

/-- A 200 lookup response whose body is blank: `response.text.strip()`
is empty, so there is no JSON to parse. -/
def respBlank : LabelResponse :=
  { status_code := 200, text_blank := true, entities := none }

/-- A 1-hop graph endpoint that always fails (non-200 status). -/
def spNone1 : Nat → Option Onehop.SparqlResult1 := fun _ => none

/-- A 4-hop graph endpoint that always fails (non-200 status). -/
def spNone4 : Nat → Option Threehop.SparqlResult4 := fun _ => none

/-- Concrete 4-hop binding of the spec scenario: pair (Q10, Q20), chain
P1, Qx, P2, Qy, P3, Qz, P4, with statement suffixes on the intermediate
entity values. -/
def b8 : Threehop.SparqlBinding4 :=
  { entity1 := some "http://www.wikidata.org/entity/Q10"
    entity2 := some "http://www.wikidata.org/entity/Q20"
    relation1 := some "http://www.wikidata.org/prop/P1"
    relation2 := some "http://www.wikidata.org/prop/P2"
    relation3 := some "http://www.wikidata.org/prop/P3"
    relation4 := some "http://www.wikidata.org/prop/P4"
    x := some "http://www.wikidata.org/entity/statement/Qx-1ab2c3d4"
    y := some "http://www.wikidata.org/entity/Qy-55e6f7"
    z := some "http://www.wikidata.org/entity/Qz-9a0b1c" }

/-- The aggregated PathBinding produced from `b8`. -/
def p8 : Threehop.PathBinding4 :=
  { relation1 := "P1", intermediate_x := "QX", relation2 := "P2",
    intermediate_y := "QY", relation3 := "P3", intermediate_z := "QZ",
    relation4 := "P4" }

/-- A 1-hop aggregation result in which the same relation code appears
for two different pairs, so the non-deduplicated code list holds it
twice. -/
def erX : List ((String × String) × List String) :=
  [(("Q1", "Q2"), ["P31"]), (("Q3", "Q4"), ["P31"])]

/-- The binding of the round-trip scenario, reused for the aggregation
witness. -/
def b1 : Onehop.SparqlBinding1 :=
  { entity1 := "http://www.wikidata.org/entity/Q1",
    entity2 := "http://www.wikidata.org/entity/Q2",
    property := "http://www.wikidata.org/prop/direct/P31" }

end Fixtures

theorem pkeys_nil {α β : Type} : pkeys ([] : List (α × β)) = [] := rfl

theorem pkeys_cons {α β : Type} (kv : α × β) (d : List (α × β)) :
    pkeys (kv :: d) = kv.1 :: pkeys d := rfl

section DictLemmas

variable {α β : Type} [DecidableEq α]

theorem pget_pset_self (d : List (α × β)) (k : α) (v : β) :
    pget (pset d k v) k = some v := by
  induction d with
  | nil => simp [pset, pget]
  | cons kv d ih =>
    obtain ⟨k0, v0⟩ := kv
    by_cases h : k = k0
    · simp [pset, h, pget]
    · simp [pset, h, pget, ih]

theorem pget_pset_ne (d : List (α × β)) (k : α) (v : β) (k' : α) (h : k' ≠ k) :
    pget (pset d k v) k' = pget d k' := by
  induction d with
  | nil => simp [pset, pget, h]
  | cons kv d ih =>
    obtain ⟨k0, v0⟩ := kv
    by_cases h0 : k = k0
    · subst h0
      simp [pset, pget, h]
    · by_cases h1 : k' = k0 <;> simp [pset, pget, h0, h1, ih]

theorem pkeys_pset (d : List (α × β)) (k : α) (v : β) :
    pkeys (pset d k v) = if k ∈ pkeys d then pkeys d else pkeys d ++ [k] := by
  induction d with
  | nil => simp [pset, pkeys]
  | cons kv d ih =>
    obtain ⟨k0, v0⟩ := kv
    by_cases h : k = k0
    · simp [pset, pkeys_cons, h]
    · simp only [pset, if_neg h, pkeys_cons]
      by_cases h1 : k ∈ pkeys d
      · rw [ih, if_pos h1, if_pos (by simp [List.mem_cons, h1])]
      · rw [ih, if_neg h1, if_neg (by simp [List.mem_cons, h, h1]), List.cons_append]

theorem pget_eq_none (d : List (α × β)) (k : α) :
    pget d k = none ↔ k ∉ pkeys d := by
  induction d with
  | nil => simp [pget, pkeys]
  | cons kv d ih =>
    obtain ⟨k0, v0⟩ := kv
    by_cases h : k = k0 <;> simp [pget, pkeys, h, ih]

theorem mem_pset (d : List (α × β)) (k : α) (v : β) (kv : α × β)
    (h : kv ∈ pset d k v) : kv = (k, v) ∨ kv ∈ d := by
  induction d with
  | nil => simpa [pset] using h
  | cons kv0 d ih =>
    obtain ⟨k0, v0⟩ := kv0
    by_cases h0 : k = k0
    · subst h0
      simp only [pset, if_pos rfl] at h
      rcases List.mem_cons.mp h with h1 | h1
      · exact Or.inl h1
      · exact Or.inr (List.mem_cons_of_mem _ h1)
    · simp only [pset, if_neg h0] at h
      rcases List.mem_cons.mp h with h1 | h1
      · exact Or.inr (h1 ▸ List.mem_cons_self _ _)
      · rcases ih h1 with h2 | h2
        · exact Or.inl h2
        · exact Or.inr (List.mem_cons_of_mem _ h2)

theorem pget_mem (d : List (α × β)) (k : α) (v : β) (h : pget d k = some v) :
    (k, v) ∈ d := by
  induction d with
  | nil => simp [pget] at h
  | cons kv0 d ih =>
    obtain ⟨k0, v0⟩ := kv0
    by_cases h0 : k = k0
    · simp only [pget] at h
      rw [if_pos h0, Option.some.injEq] at h
      subst h0
      subst h
      exact List.mem_cons_self _ _
    · simp only [pget] at h
      rw [if_neg h0] at h
      exact List.mem_cons_of_mem _ (ih h)

end DictLemmas

section FoldPsetLemmas

variable {α β : Type} [DecidableEq α]

theorem foldl_pset_get_not_mem (f : α → β) (ids : List α) (init : List (α × β)) (k : α)
    (h : k ∉ ids) :
    pget (ids.foldl (fun l x => pset l x (f x)) init) k = pget init k := by
  induction ids generalizing init with
  | nil => rfl
  | cons x ids ih =>
    simp only [List.mem_cons, not_or] at h
    rw [List.foldl_cons, ih _ h.2, pget_pset_ne _ _ _ _ h.1]

theorem foldl_pset_get_mem (f : α → β) (ids : List α) (init : List (α × β)) (k : α)
    (hnd : ids.Nodup) (h : k ∈ ids) :
    pget (ids.foldl (fun l x => pset l x (f x)) init) k = some (f k) := by
  induction ids generalizing init with
  | nil => simp at h
  | cons x ids ih =>
    rw [List.foldl_cons]
    rcases List.mem_cons.mp h with h1 | h1
    · subst h1
      rw [foldl_pset_get_not_mem _ _ _ _ (List.nodup_cons.mp hnd).1, pget_pset_self]
    · exact ih _ (List.nodup_cons.mp hnd).2 h1

theorem foldl_pset_keys (f : α → β) (ids : List α) (init : List (α × β))
    (hinit : ∀ i ∈ ids, i ∉ pkeys init) (hnd : ids.Nodup) :
    pkeys (ids.foldl (fun l x => pset l x (f x)) init) = pkeys init ++ ids := by
  induction ids generalizing init with
  | nil => simp
  | cons x ids ih =>
    rw [List.foldl_cons]
    have hx : x ∉ pkeys init := hinit x (List.mem_cons_self _ _)
    have hkeys : pkeys (pset init x (f x)) = pkeys init ++ [x] := by
      rw [pkeys_pset, if_neg hx]
    rw [ih (pset init x (f x)) ?_ (List.nodup_cons.mp hnd).2, hkeys,
      List.append_assoc, List.singleton_append]
    intro i hi
    rw [hkeys]
    simp only [List.mem_append, List.mem_singleton, not_or]
    exact ⟨hinit i (List.mem_cons_of_mem _ hi),
      fun he => (List.nodup_cons.mp hnd).1 (he ▸ hi)⟩

end FoldPsetLemmas

section FirstSeenLemmas

variable {α : Type} [DecidableEq α]

theorem mem_firstSeenAux (x : α) :
    ∀ (l acc : List α), x ∈ firstSeenAux l acc ↔ x ∈ l ∨ x ∈ acc := by
  intro l
  induction l with
  | nil => intro acc; simp [firstSeenAux]
  | cons y l ih =>
    intro acc
    by_cases h : y ∈ acc
    · rw [firstSeenAux, if_pos h, ih]
      constructor
      · rintro (h1 | h1)
        · exact Or.inl (List.mem_cons_of_mem _ h1)
        · exact Or.inr h1
      · rintro (h1 | h1)
        · rcases List.mem_cons.mp h1 with h2 | h2
          · exact Or.inr (h2 ▸ h)
          · exact Or.inl h2
        · exact Or.inr h1
    · rw [firstSeenAux, if_neg h, ih]
      simp only [List.mem_cons, List.mem_append, List.mem_singleton]
      tauto

theorem mem_firstSeen (x : α) (l : List α) : x ∈ firstSeen l ↔ x ∈ l := by
  rw [firstSeen, mem_firstSeenAux]
  simp

theorem nodup_firstSeenAux :
    ∀ (l acc : List α), acc.Nodup → (firstSeenAux l acc).Nodup := by
  intro l
  induction l with
  | nil => intro acc h; exact h
  | cons y l ih =>
    intro acc h
    by_cases hy : y ∈ acc
    · rw [firstSeenAux, if_pos hy]
      exact ih acc h
    · rw [firstSeenAux, if_neg hy]
      refine ih _ ?_
      simp [List.nodup_append, h, hy]

theorem nodup_firstSeen (l : List α) : (firstSeen l).Nodup :=
  nodup_firstSeenAux l [] List.nodup_nil

end FirstSeenLemmas

section ChunkLemmas

theorem ceilDiv_eq_zero (n b : Nat) (hb : 0 < b) (hn : n = 0) : ceilDiv n b = 0 := by
  subst hn
  unfold ceilDiv
  exact Nat.div_eq_of_lt (by omega)

theorem ceilDiv_pos_step (n b : Nat) (hb : 0 < b) (hn : 0 < n) :
    ceilDiv n b = ceilDiv (n - b) b + 1 := by
  unfold ceilDiv
  rcases Nat.lt_or_ge n b with h | h
  · have h1 : n - b = 0 := Nat.sub_eq_zero_of_le (Nat.le_of_lt h)
    rw [h1]
    have h2 : (0 + b - 1) / b = 0 := Nat.div_eq_of_lt (by omega)
    rw [h2]
    have h3 : n + b - 1 = (n - 1) + b := by omega
    rw [h3, Nat.add_div_right _ hb]
    have h4 : (n - 1) / b = 0 := Nat.div_eq_of_lt (by omega)
    omega
  · have h3 : n + b - 1 = (n - b + b - 1) + b := by omega
    rw [h3, Nat.add_div_right _ hb]

theorem ceilDiv_eq_zero_iff (n b : Nat) (hb : 0 < b) : ceilDiv n b = 0 ↔ n = 0 := by
  constructor
  · intro h
    by_contra hn
    rw [ceilDiv_pos_step n b hb (by omega)] at h
    omega
  · exact ceilDiv_eq_zero n b hb

theorem labelChunks_flatten_aux {α : Type} (b : Nat) (hb : 0 < b) :
    ∀ (k : Nat) (l : List α), ceilDiv l.length b = k → (labelChunks l b).flatten = l := by
  intro k
  induction k with
  | zero =>
    intro l hl
    have hlen : l.length = 0 := (ceilDiv_eq_zero_iff _ _ hb).mp hl
    have : l = [] := List.length_eq_zero.mp hlen
    subst this
    simp [labelChunks, ceilDiv_eq_zero _ _ hb rfl]
  | succ k ih =>
    intro l hl
    have hn : 0 < l.length := by
      by_contra h
      have h0 : l.length = 0 := by omega
      rw [ceilDiv_eq_zero _ _ hb h0] at hl
      omega
    have hrec : ceilDiv (l.length - b) b = k := by
      have := ceilDiv_pos_step l.length b hb hn
      omega
    have hdl : (l.drop b).length = l.length - b := List.length_drop _ _
    unfold labelChunks
    rw [hl, List.range_succ_eq_map, List.map_cons, List.map_map]
    have hfun :
        ((fun i => (l.drop (i * b)).take b) ∘ Nat.succ)
          = fun i => ((l.drop b).drop (i * b)).take b := by
      funext i
      show (l.drop (Nat.succ i * b)).take b = ((l.drop b).drop (i * b)).take b
      rw [List.drop_drop, Nat.succ_mul, Nat.add_comm]
    rw [hfun, List.flatten_cons]
    have htail :
        (List.map (fun i => ((l.drop b).drop (i * b)).take b) (List.range k)).flatten
          = l.drop b := by
      have := ih (l.drop b) (by rw [hdl]; exact hrec)
      unfold labelChunks at this
      rw [hdl, hrec] at this
      exact this
    rw [htail]
    simp [List.take_append_drop]

theorem labelChunks_flatten {α : Type} (l : List α) (b : Nat) (hb : 0 < b) :
    (labelChunks l b).flatten = l :=
  labelChunks_flatten_aux b hb (ceilDiv l.length b) l rfl

theorem nodup_flatten_pairwise {α : Type} :
    ∀ L : List (List α), L.flatten.Nodup → L.Pairwise (fun a b => ∀ c ∈ a, c ∉ b) := by
  intro L
  induction L with
  | nil => intro _; exact List.Pairwise.nil
  | cons l L ih =>
    intro h
    rw [List.flatten_cons, List.nodup_append] at h
    obtain ⟨h1, h2, h3⟩ := h
    refine List.Pairwise.cons ?_ (ih h2)
    intro l2 hl2 c hc hc2
    exact h3 hc (List.mem_flatten.mpr ⟨l2, hl2, hc2⟩)

end ChunkLemmas

section PyGroupLemmas

variable {α β γ : Type} [DecidableEq α]

theorem pyGroup_keys_aux (key : γ → α) (val : γ → β) :
    ∀ (bs : List γ) (d : List (α × List β)),
      pkeys (bs.foldl (pyGroupStep key val) d) = firstSeenAux (bs.map key) (pkeys d) := by
  intro bs
  induction bs with
  | nil => intro d; rfl
  | cons b bs ih =>
    intro d
    rw [List.foldl_cons, List.map_cons, ih]
    have hstep : pkeys (pyGroupStep key val d b)
        = if key b ∈ pkeys d then pkeys d else pkeys d ++ [key b] := pkeys_pset _ _ _
    by_cases h : key b ∈ pkeys d
    · rw [hstep, if_pos h, firstSeenAux, if_pos h]
    · rw [hstep, if_neg h, firstSeenAux, if_neg h]

theorem pyGroup_keys (key : γ → α) (val : γ → β) (bs : List γ) :
    pkeys (pyGroup key val bs) = firstSeen (bs.map key) :=
  pyGroup_keys_aux key val bs []

theorem pyGroup_getD_aux (key : γ → α) (val : γ → β) :
    ∀ (bs : List γ) (d : List (α × List β)) (p : α),
      (pget (bs.foldl (pyGroupStep key val) d) p).getD []
        = (pget d p).getD [] ++ (bs.filter (fun b => key b = p)).map val := by
  intro bs
  induction bs with
  | nil => intro d p; simp
  | cons b bs ih =>
    intro d p
    rw [List.foldl_cons, ih]
    by_cases h : key b = p
    · have hget : pget (pyGroupStep key val d b) p
          = some ((pget d (key b)).getD [] ++ [val b]) := by
        rw [pyGroupStep, h, pget_pset_self]
      rw [hget, h]
      simp only [Option.getD_some, List.filter_cons]
      rw [if_pos (by simp [h]), List.map_cons, List.append_assoc, List.singleton_append]
    · have hget : pget (pyGroupStep key val d b) p = pget d p := by
        rw [pyGroupStep]
        exact pget_pset_ne _ _ _ _ (fun he => h he.symm)
      rw [hget]
      simp only [List.filter_cons]
      rw [if_neg (by simp [h])]

theorem pyGroup_getD (key : γ → α) (val : γ → β) (bs : List γ) (p : α) :
    (pget (pyGroup key val bs) p).getD []
      = (bs.filter (fun b => key b = p)).map val := by
  have := pyGroup_getD_aux key val bs [] p
  simpa [pget] using this

theorem pyGroup_get_of_mem (key : γ → α) (val : γ → β) (bs : List γ) (p : α)
    (h : p ∈ bs.map key) :
    pget (pyGroup key val bs) p = some ((bs.filter (fun b => key b = p)).map val) := by
  have hk : p ∈ pkeys (pyGroup key val bs) := by
    rw [pyGroup_keys]
    rw [mem_firstSeen]
    exact h
  have hne : pget (pyGroup key val bs) p ≠ none := by
    intro hn
    exact ((pget_eq_none _ _).mp hn) hk
  rcases hv : pget (pyGroup key val bs) p with _ | v
  · exact absurd hv hne
  · have := pyGroup_getD key val bs p
    rw [hv] at this
    simp only [Option.getD_some] at this
    rw [this]

theorem pyGroup_entry_val (key : γ → α) (val : γ → β) :
    ∀ (bs : List γ) (d : List (α × List β)) (kv : α × List β),
      kv ∈ bs.foldl (pyGroupStep key val) d → ∀ r ∈ kv.2,
        (∃ b ∈ bs, r = val b) ∨ ∃ kv0 ∈ d, r ∈ kv0.2 := by
  intro bs
  induction bs with
  | nil =>
    intro d kv hkv r hr
    exact Or.inr ⟨kv, hkv, hr⟩
  | cons b bs ih =>
    intro d kv hkv r hr
    rcases ih _ kv hkv r hr with h | ⟨kv0, hkv0, hr0⟩
    · obtain ⟨b1, hb1, he⟩ := h
      exact Or.inl ⟨b1, List.mem_cons_of_mem _ hb1, he⟩
    · rcases mem_pset _ _ _ _ hkv0 with h1 | h1
      · subst h1
        simp only at hr0
        rcases List.mem_append.mp hr0 with h2 | h2
        · rcases hv : pget d (key b) with _ | old
          · rw [hv] at h2
            simp at h2
          · rw [hv] at h2
            simp only [Option.getD_some] at h2
            exact Or.inr ⟨(key b, old), pget_mem _ _ _ hv, h2⟩
        · rw [List.mem_singleton] at h2
          exact Or.inl ⟨b, List.mem_cons_self _ _, h2⟩
      · exact Or.inr ⟨kv0, h1, hr0⟩

end PyGroupLemmas

section ValuesLemmas

theorem values_entry_eq_none (p : List String) :
    values_entry p = none ↔ p.length ≠ 2 := by
  rcases p with _ | ⟨e1, _ | ⟨e2, _ | ⟨e3, t⟩⟩⟩
  · exact ⟨fun _ => by simp, fun _ => rfl⟩
  · exact ⟨fun _ => by simp, fun _ => rfl⟩
  · exact ⟨fun h => Option.noConfusion h, fun h => absurd rfl h⟩
  · exact ⟨fun _ => by simp, fun _ => rfl⟩

theorem values_entries_eq_none :
    ∀ l : List (List String), values_entries l = none ↔ ∃ p ∈ l, p.length ≠ 2 := by
  intro l
  induction l with
  | nil => simp [values_entries]
  | cons p rest ih =>
    rw [values_entries]
    rcases hp : values_entry p with _ | s
    · constructor
      · intro _
        exact ⟨p, List.mem_cons_self _ _, (values_entry_eq_none p).mp hp⟩
      · intro _
        rfl
    · rcases h : values_entries rest with _ | es
      · constructor
        · intro _
          obtain ⟨q, hq, hql⟩ := ih.mp h
          exact ⟨q, List.mem_cons_of_mem _ hq, hql⟩
        · intro _
          rfl
      · constructor
        · intro hc
          simp at hc
        · rintro ⟨q, hq, hql⟩
          rcases List.mem_cons.mp hq with h1 | h1
          · have : values_entry p = none := (values_entry_eq_none p).mpr (h1 ▸ hql)
            rw [this] at hp
            cases hp
          · have h2 : values_entries rest = none := ih.mpr ⟨q, h1, hql⟩
            rw [h2] at h
            cases h

theorem values_entries_isSome (l : List (List String)) (h : ∀ p ∈ l, p.length = 2) :
    values_entries l ≠ none := by
  intro hn
  obtain ⟨p, hp, hlen⟩ := (values_entries_eq_none l).mp hn
  exact hlen (h p hp)

theorem values_clause_eq_none (l : List (List String)) :
    values_clause l = none ↔ values_entries l = none := by
  rw [values_clause]
  rcases h : values_entries l with _ | es <;> simp

end ValuesLemmas

namespace Onehop

theorem process_batch_error1 (batch : List (List String)) (r : Option SparqlResult1)
    (lbs : Nat) (lookup : List String → LabelResponse)
    (h : values_clause batch = none) :
    process_batch batch r lbs lookup = Except.error [] := by
  rw [process_batch, batch_sparql_query, h]

theorem run_batches_acc1 (ep : List (List String)) (bs lbs : Nat)
    (sp : Nat → Option SparqlResult1) (lk : List String → LabelResponse) :
    ∀ (l : List Nat) (out : List String) (evs : List Event),
      run_batches ep bs lbs sp lk l out evs
        = { output := out ++ (run_batches ep bs lbs sp lk l [] []).output,
            events := evs ++ (run_batches ep bs lbs sp lk l [] []).events,
            crashed := (run_batches ep bs lbs sp lk l [] []).crashed } := by
  intro l
  induction l with
  | nil =>
    intro out evs
    simp [run_batches]
  | cons i rest ih =>
    intro out evs
    rw [run_batches, run_batches]
    rcases h : process_batch ((ep.drop (i * bs)).take bs) (sp i) lbs lk with bevs | lb
    · simp
    · obtain ⟨lines, bevs⟩ := lb
      simp only []
      rw [ih (out ++ lines) (evs ++ bevs), ih ([] ++ lines) ([] ++ bevs)]
      simp [List.append_assoc]

theorem run_batches_crash1 (ep : List (List String)) (bs lbs : Nat)
    (sp : Nat → Option SparqlResult1) (lk : List String → LabelResponse)
    (i : Nat) (rest : List Nat) (out : List String) (evs : List Event)
    (hbad : ∃ p ∈ (ep.drop (i * bs)).take bs, p.length ≠ 2) :
    run_batches ep bs lbs sp lk (i :: rest) out evs
      = { output := out, events := evs, crashed := true } := by
  rw [run_batches]
  have h2 : process_batch ((ep.drop (i * bs)).take bs) (sp i) lbs lk = Except.error [] :=
    process_batch_error1 _ _ _ _
      ((values_clause_eq_none _).mpr ((values_entries_eq_none _).mpr hbad))
  rw [h2]
  simp

theorem run_batches_crashed_of_bad1 (ep : List (List String)) (bs lbs : Nat)
    (sp : Nat → Option SparqlResult1) (lk : List String → LabelResponse) :
    ∀ (l : List Nat) (out : List String) (evs : List Event),
      (∃ i ∈ l, ∃ p ∈ (ep.drop (i * bs)).take bs, p.length ≠ 2) →
      (run_batches ep bs lbs sp lk l out evs).crashed = true := by
  intro l
  induction l with
  | nil =>
    intro out evs h
    obtain ⟨i, hi, _⟩ := h
    simp at hi
  | cons i rest ih =>
    intro out evs h
    rw [run_batches]
    by_cases hb : ∃ p ∈ (ep.drop (i * bs)).take bs, p.length ≠ 2
    · rw [process_batch_error1 _ (sp i) lbs lk
        ((values_clause_eq_none _).mpr ((values_entries_eq_none _).mpr hb))]
    · obtain ⟨i0, hi0, hbad0⟩ := h
      rcases List.mem_cons.mp hi0 with heq | hi0r
      · exact absurd (heq ▸ hbad0) hb
      · rcases hpb : process_batch ((ep.drop (i * bs)).take bs) (sp i) lbs lk with bevs | lb
        · rfl
        · obtain ⟨lines, bevs⟩ := lb
          exact ih _ _ ⟨i0, hi0r, hbad0⟩

theorem run_batches_null_skip1 (ep : List (List String)) (bs lbs : Nat)
    (sp : Nat → Option SparqlResult1) (lk : List String → LabelResponse)
    (i : Nat) (rest : List Nat) (out : List String) (evs : List Event) (c : String)
    (hsp : sp i = none) (hvc : values_clause ((ep.drop (i * bs)).take bs) = some c) :
    run_batches ep bs lbs sp lk (i :: rest) out evs
      = run_batches ep bs lbs sp lk rest out
          (evs ++ [Event.sparqlRequest c, Event.sleep 50, Event.sleep 15]) := by
  rw [run_batches]
  have h : process_batch ((ep.drop (i * bs)).take bs) (sp i) lbs lk
      = Except.ok ([], [Event.sparqlRequest c, Event.sleep 50, Event.sleep 15]) := by
    rw [process_batch, batch_sparql_query, hvc, hsp]
    rfl
  rw [h]
  simp only [List.append_nil]

end Onehop

namespace Threehop

theorem process_batch_eq_none4 (batch : List (List String)) (r : Option SparqlResult4)
    (lbs : Nat) (lookup : List String → LabelResponse) :
    process_batch batch r lbs lookup = none ↔ values_clause batch = none := by
  rw [process_batch, batch_sparql_query]
  rcases h : values_clause batch with _ | c
  · simp
  · rcases r with _ | res <;> simp

theorem run_batches_acc4 (ep : List (List String)) (bs lbs : Nat)
    (sp : Nat → Option SparqlResult4) (lk : List String → LabelResponse) :
    ∀ (l : List Nat) (out : List String) (evs : List Event),
      run_batches ep bs lbs sp lk l out evs
        = { output := out ++ (run_batches ep bs lbs sp lk l [] []).output,
            events := evs ++ (run_batches ep bs lbs sp lk l [] []).events,
            crashed := (run_batches ep bs lbs sp lk l [] []).crashed } := by
  intro l
  induction l with
  | nil =>
    intro out evs
    simp [run_batches]
  | cons i rest ih =>
    intro out evs
    rw [run_batches, run_batches]
    rcases h : process_batch ((ep.drop (i * bs)).take bs) (sp i) lbs lk with _ | lb
    · simp
    · obtain ⟨lines, bevs⟩ := lb
      simp only []
      rw [ih (out ++ lines) (evs ++ bevs), ih ([] ++ lines) ([] ++ bevs)]
      simp [List.append_assoc]

theorem run_batches_crashed_of_bad4 (ep : List (List String)) (bs lbs : Nat)
    (sp : Nat → Option SparqlResult4) (lk : List String → LabelResponse) :
    ∀ (l : List Nat) (out : List String) (evs : List Event),
      (∃ i ∈ l, ∃ p ∈ (ep.drop (i * bs)).take bs, p.length ≠ 2) →
      (run_batches ep bs lbs sp lk l out evs).crashed = true := by
  intro l
  induction l with
  | nil =>
    intro out evs h
    obtain ⟨i, hi, _⟩ := h
    simp at hi
  | cons i rest ih =>
    intro out evs h
    rw [run_batches]
    by_cases hb : ∃ p ∈ (ep.drop (i * bs)).take bs, p.length ≠ 2
    · have h2 : process_batch ((ep.drop (i * bs)).take bs) (sp i) lbs lk = none := by
        rw [process_batch_eq_none4, values_clause_eq_none]
        exact (values_entries_eq_none _).mpr hb
      rw [h2]
    · obtain ⟨i0, hi0, hbad0⟩ := h
      rcases List.mem_cons.mp hi0 with heq | hi0r
      · exact absurd (heq ▸ hbad0) hb
      · rcases hpb : process_batch ((ep.drop (i * bs)).take bs) (sp i) lbs lk with _ | lb
        · rfl
        · obtain ⟨lines, bevs⟩ := lb
          exact ih _ _ ⟨i0, hi0r, hbad0⟩

theorem run_batches_crash4 (ep : List (List String)) (bs lbs : Nat)
    (sp : Nat → Option SparqlResult4) (lk : List String → LabelResponse)
    (i : Nat) (rest : List Nat) (out : List String) (evs : List Event)
    (hbad : ∃ p ∈ (ep.drop (i * bs)).take bs, p.length ≠ 2) :
    run_batches ep bs lbs sp lk (i :: rest) out evs
      = { output := out, events := evs, crashed := true } := by
  rw [run_batches]
  have h2 : process_batch ((ep.drop (i * bs)).take bs) (sp i) lbs lk = none := by
    rw [process_batch_eq_none4, values_clause_eq_none]
    exact (values_entries_eq_none _).mpr hbad
  rw [h2]

theorem run_batches_null_skip4 (ep : List (List String)) (bs lbs : Nat)
    (sp : Nat → Option SparqlResult4) (lk : List String → LabelResponse)
    (i : Nat) (rest : List Nat) (out : List String) (evs : List Event) (c : String)
    (hsp : sp i = none) (hvc : values_clause ((ep.drop (i * bs)).take bs) = some c) :
    run_batches ep bs lbs sp lk (i :: rest) out evs
      = run_batches ep bs lbs sp lk rest out
          (evs ++ [Event.sparqlRequest c, Event.sleep 50, Event.sleep 15]) := by
  rw [run_batches]
  have h : process_batch ((ep.drop (i * bs)).take bs) (sp i) lbs lk
      = some ([], [Event.sparqlRequest c, Event.sleep 50, Event.sleep 15]) := by
    rw [process_batch, batch_sparql_query, hvc, hsp]
    rfl
  rw [h]
  simp only [List.append_nil]

end Threehop

section ResolverLemmas

theorem identity_labels_keys (ids : List String) (hnd : ids.Nodup) :
    pkeys (identity_labels ids) = ids := by
  have h := foldl_pset_keys (fun x : String => x) ids [] (by simp [pkeys]) hnd
  simpa [identity_labels, pkeys] using h

theorem identity_labels_get (ids : List String) (pid : String) (hnd : ids.Nodup)
    (h : pid ∈ ids) :
    pget (identity_labels ids) pid = some pid := by
  have h2 := foldl_pset_get_mem (fun x : String => x) ids [] pid hnd h
  simpa [identity_labels] using h2

theorem resolve_ids_keys (ents : List (String × LabelEntityData)) (ids : List String)
    (hnd : ids.Nodup) :
    pkeys (resolve_ids ents ids) = ids := by
  have h := foldl_pset_keys (resolveOne ents) ids [] (by simp [pkeys]) hnd
  simpa [resolve_ids, pkeys] using h

theorem resolve_ids_get (ents : List (String × LabelEntityData)) (ids : List String)
    (pid : String) (hnd : ids.Nodup) (h : pid ∈ ids) :
    pget (resolve_ids ents ids) pid = some (resolveOne ents pid) := by
  have h2 := foldl_pset_get_mem (resolveOne ents) ids [] pid hnd h
  simpa [resolve_ids] using h2

end ResolverLemmas

namespace Onehop

theorem find_labels_some1 (ids : List String) (r : LabelResponse)
    (hparse : r.status_code = 200 → r.text_blank = false) :
    (find_property_labels_batch ids r).2
      = some (if r.status_code = 200 then
                match r.entities with
                | some ents => resolve_ids ents ids
                | none => identity_labels ids
              else identity_labels ids) := by
  rw [find_property_labels_batch]
  by_cases h200 : r.status_code = 200
  · rw [if_pos h200, if_pos h200, if_neg (by simp [hparse h200])]
  · rw [if_neg h200, if_neg h200]

theorem find_labels_keys1 (ids : List String) (r : LabelResponse) (hnd : ids.Nodup)
    (hparse : r.status_code = 200 → r.text_blank = false) :
    pkeys ((find_property_labels_batch ids r).2.getD []) = ids := by
  rw [find_labels_some1 ids r hparse]
  simp only [Option.getD_some]
  by_cases h200 : r.status_code = 200
  · rw [if_pos h200]
    rcases hents : r.entities with _ | ents
    · exact identity_labels_keys ids hnd
    · exact resolve_ids_keys ents ids hnd
  · rw [if_neg h200]
    exact identity_labels_keys ids hnd

theorem find_labels_get1 (ids : List String) (r : LabelResponse) (pid : String)
    (hnd : ids.Nodup) (hmem : pid ∈ ids)
    (hparse : r.status_code = 200 → r.text_blank = false) :
    pget ((find_property_labels_batch ids r).2.getD []) pid
      = some (if r.status_code = 200 then
                match r.entities with
                | some ents => resolveOne ents pid
                | none => pid
              else pid) := by
  rw [find_labels_some1 ids r hparse]
  simp only [Option.getD_some]
  by_cases h200 : r.status_code = 200
  · rw [if_pos h200, if_pos h200]
    rcases hents : r.entities with _ | ents
    · exact identity_labels_get ids pid hnd hmem
    · exact resolve_ids_get ents ids pid hnd hmem
  · rw [if_neg h200, if_neg h200]
    exact identity_labels_get ids pid hnd hmem

end Onehop

namespace Threehop

theorem find_labels_keys4 (ids : List String) (r : LabelResponse) (hnd : ids.Nodup)
    (hne : ids ≠ []) :
    pkeys (find_property_labels_batch ids r).2 = ids := by
  have hie : ids.isEmpty = false := by
    cases ids with
    | nil => exact absurd rfl hne
    | cons a l => rfl
  rw [find_property_labels_batch, if_neg (by simp [hie])]
  by_cases h200 : r.status_code = 200
  · rw [if_pos h200]
    by_cases htb : r.text_blank = true
    · rw [if_pos htb]
      exact identity_labels_keys ids hnd
    · rw [if_neg htb]
      rcases hents : r.entities with _ | ents
      · exact identity_labels_keys ids hnd
      · exact resolve_ids_keys ents ids hnd
  · rw [if_neg h200]
    exact identity_labels_keys ids hnd

theorem find_labels_get4 (ids : List String) (r : LabelResponse) (pid : String)
    (hnd : ids.Nodup) (hmem : pid ∈ ids) :
    pget (find_property_labels_batch ids r).2 pid
      = some (if r.status_code = 200 then
                if r.text_blank then pid
                else
                  match r.entities with
                  | some ents => resolveOne ents pid
                  | none => pid
              else pid) := by
  have hie : ids.isEmpty = false := by
    cases ids with
    | nil => simp at hmem
    | cons a l => rfl
  rw [find_property_labels_batch, if_neg (by simp [hie])]
  by_cases h200 : r.status_code = 200
  · rw [if_pos h200, if_pos h200]
    by_cases htb : r.text_blank = true
    · rw [if_pos htb, if_pos htb]
      exact identity_labels_get ids pid hnd hmem
    · rw [if_neg htb, if_neg htb]
      rcases hents : r.entities with _ | ents
      · exact identity_labels_get ids pid hnd hmem
      · exact resolve_ids_get ents ids pid hnd hmem
  · rw [if_neg h200, if_neg h200]
    exact identity_labels_get ids pid hnd hmem

end Threehop

theorem Onehop.process_entity_pairs_output1 (lines o : List String) (bs lbs : Nat)
    (sp : Nat → Option Onehop.SparqlResult1) (lk : List String → LabelResponse) :
    (Onehop.process_entity_pairs lines o bs lbs sp lk).output
      = o ++ (Onehop.process_entity_pairs lines [] bs lbs sp lk).output := by
  rw [Onehop.process_entity_pairs, Onehop.process_entity_pairs, Onehop.run_batches_acc1]

theorem Threehop.process_entity_pairs_output4 (lines o : List String) (bs lbs : Nat)
    (sp : Nat → Option Threehop.SparqlResult4) (lk : List String → LabelResponse) :
    (Threehop.process_entity_pairs lines o bs lbs sp lk).output
      = o ++ (Threehop.process_entity_pairs lines [] bs lbs sp lk).output := by
  rw [Threehop.process_entity_pairs, Threehop.process_entity_pairs, Threehop.run_batches_acc4]

/-- C3, counterexample: for the empty code set, the 1-hop
`find_property_labels_batch` still issues the lookup request — its
request trace at the concrete HTTP-500 response is nonempty — so the
claim that neither variant issues a network call is false. -/
theorem C3_counterexample :
    (Onehop.find_property_labels_batch [] resp500).1 ≠ [] := by decide

/-- C3, amended: for the empty code set the 4-hop variant short-circuits,
issuing no request and returning the empty mapping; the 1-hop variant —
which has no empty-batch guard — still issues one lookup request (with
an empty id list) and then returns the empty mapping whenever a 200
response body is non-blank, while on a blank 200 body its
`response.json()` call raises `JSONDecodeError` instead of returning. -/
theorem C3_empty_amended (r : LabelResponse) :
    Threehop.find_property_labels_batch [] r = ([], [])
      ∧ (Onehop.find_property_labels_batch [] r).1 = [Event.labelRequest []]
      ∧ ((r.status_code = 200 → r.text_blank = false) →
          (Onehop.find_property_labels_batch [] r).2 = some [])
      ∧ (Onehop.find_property_labels_batch [] respBlank).2 = none := by
  refine ⟨rfl, rfl, ?_, by decide⟩
  intro hparse
  rw [Onehop.find_labels_some1 [] r hparse]
  by_cases h200 : r.status_code = 200
  · rw [if_pos h200]
    rcases hents : r.entities with _ | ents
    · rfl
    · rfl
  · rw [if_neg h200]
    rfl

/-- Witness for C3 at the concrete HTTP-500 response. -/
theorem C3_empty_amended_witness :
    (Onehop.find_property_labels_batch [] resp500).2 = some [] :=
  (C3_empty_amended resp500).2.2.1 (fun h => absurd h (by decide))

/-- C4, counterexample: at a 200 lookup response with a blank body the
1-hop `find_property_labels_batch` does not return a mapping at all —
`response.json()` raises `JSONDecodeError` (modelled by `none`) — while
the guarded 4-hop variant returns the identity mapping, so the claim
that every lookup response yields one entry per input code is false for
the 1-hop variant. -/
theorem C4_counterexample :
    (Onehop.find_property_labels_batch ["P31"] respBlank).2 = none
      ∧ Threehop.find_property_labels_batch ["P31"] respBlank
          = ([Event.labelRequest ["P31"]], [("P31", "P31")]) := by
  exact ⟨by decide, by decide⟩

/-- C4, amended: for every duplicate-free non-empty code list, the 4-hop
`find_property_labels_batch` returns, for every lookup response, a
mapping whose key list is exactly the input code list; the 1-hop variant
does so for every response that does not pair a 200 status with a blank
body (there it raises instead).  In both variants a code in a batch with
a non-success status, a code absent from the response `entities`, and a
code whose entity lacks an English label all map to the code itself; in
particular the HTTP-500 batch ["P31", "P279"] resolves to the identity
mapping. -/
theorem C4_resolver_total_amended (ids : List String) (r : LabelResponse)
    (hnd : ids.Nodup) (hne : ids ≠ [])
    (hparse : r.status_code = 200 → r.text_blank = false) :
    ((Onehop.find_property_labels_batch ids r).2.isSome = true
      ∧ pkeys ((Onehop.find_property_labels_batch ids r).2.getD []) = ids
      ∧ pkeys (Threehop.find_property_labels_batch ids r).2 = ids)
    ∧ (∀ pid ∈ ids,
        (r.status_code ≠ 200 →
          pget ((Onehop.find_property_labels_batch ids r).2.getD []) pid = some pid
            ∧ pget (Threehop.find_property_labels_batch ids r).2 pid = some pid)
        ∧ (∀ ents, r.entities = some ents → pget ents pid = none →
            pget ((Onehop.find_property_labels_batch ids r).2.getD []) pid = some pid
              ∧ pget (Threehop.find_property_labels_batch ids r).2 pid = some pid)
        ∧ (∀ ents e, r.entities = some ents → pget ents pid = some e → e.enLabel = none →
            pget ((Onehop.find_property_labels_batch ids r).2.getD []) pid = some pid
              ∧ pget (Threehop.find_property_labels_batch ids r).2 pid = some pid))
    ∧ (Onehop.find_property_labels_batch ["P31", "P279"] resp500).2
        = some [("P31", "P31"), ("P279", "P279")]
    ∧ (Threehop.find_property_labels_batch ["P31", "P279"] resp500).2
        = [("P31", "P31"), ("P279", "P279")] := by
  refine ⟨⟨by rw [Onehop.find_labels_some1 ids r hparse]; rfl,
    Onehop.find_labels_keys1 ids r hnd hparse, Threehop.find_labels_keys4 ids r hnd hne⟩,
    ?_, by decide, by decide⟩
  intro pid hmem
  have h1 := Onehop.find_labels_get1 ids r pid hnd hmem hparse
  have h3 := Threehop.find_labels_get4 ids r pid hnd hmem
  refine ⟨?_, ?_, ?_⟩
  · intro h200
    constructor
    · rw [h1, if_neg h200]
    · rw [h3, if_neg h200]
  · intro ents hents hnone
    constructor
    · rw [h1, hents]
      by_cases h200 : r.status_code = 200
      · rw [if_pos h200]
        show some (resolveOne ents pid) = some pid
        rw [resolveOne, hnone]
      · rw [if_neg h200]
    · rw [h3, hents]
      by_cases h200 : r.status_code = 200
      · by_cases htb : r.text_blank = true
        · rw [if_pos h200, if_pos htb]
        · rw [if_pos h200, if_neg htb]
          show some (resolveOne ents pid) = some pid
          rw [resolveOne, hnone]
      · rw [if_neg h200]
  · intro ents e hents hsome henl
    constructor
    · rw [h1, hents]
      by_cases h200 : r.status_code = 200
      · rw [if_pos h200]
        show some (resolveOne ents pid) = some pid
        rw [resolveOne, hsome]
        show some (match e.enLabel with | some v => v | none => pid) = some pid
        rw [henl]
      · rw [if_neg h200]
    · rw [h3, hents]
      by_cases h200 : r.status_code = 200
      · by_cases htb : r.text_blank = true
        · rw [if_pos h200, if_pos htb]
        · rw [if_pos h200, if_neg htb]
          show some (resolveOne ents pid) = some pid
          rw [resolveOne, hsome]
          show some (match e.enLabel with | some v => v | none => pid) = some pid
          rw [henl]
      · rw [if_neg h200]

/-- Witness for C4 at the concrete HTTP-500 batch of the spec scenario. -/
theorem C4_resolver_total_amended_witness :
    pkeys ((Onehop.find_property_labels_batch ["P31", "P279"] resp500).2.getD [])
        = ["P31", "P279"]
      ∧ pkeys (Threehop.find_property_labels_batch ["P31", "P279"] resp500).2
          = ["P31", "P279"] :=
  ⟨(C4_resolver_total_amended ["P31", "P279"] resp500 (by decide) (by decide)
      (fun h => absurd h (by decide))).1.2.1,
   (C4_resolver_total_amended ["P31", "P279"] resp500 (by decide) (by decide)
      (fun h => absurd h (by decide))).1.2.2⟩

/-- C5, counterexample: in the 1-hop variant a relation code absent from
the resolved label map is written as the literal "No Relation", not as
the code itself, so the claimed code fallback is false for that
variant. -/
theorem C5_counterexample :
    Onehop.output_lines [(("Q1", "Q2"), ["P31"])] [] = ["Q1#Q2\tNo Relation"]
      ∧ "Q1#Q2\tNo Relation" ≠ "Q1#Q2\tP31" := ⟨by decide, by decide⟩

/-- C5, amended: at write time the 4-hop variant substitutes the code
itself for every code absent from the resolved maps, while the 1-hop
variant substitutes the literal "No Relation" for an absent code. -/
theorem C5_fallback_amended :
    (∀ (e1 e2 : String) (p : Threehop.PathBinding4) (pl el : List (String × String)),
      pget pl p.relation1 = none → pget el p.intermediate_x = none →
      pget pl p.relation2 = none → pget el p.intermediate_y = none →
      pget pl p.relation3 = none → pget el p.intermediate_z = none →
      pget pl p.relation4 = none →
      Threehop.output_lines [((e1, e2), [p])] pl el
        = [e1 ++ "#" ++ e2 ++ "\t" ++ p.relation1 ++ "#" ++ p.intermediate_x ++ "#"
            ++ p.relation2 ++ "#" ++ p.intermediate_y ++ "#" ++ p.relation3 ++ "#"
            ++ p.intermediate_z ++ "#" ++ p.relation4])
    ∧ (∀ (e1 e2 pid : String) (pl : List (String × String)),
        pget pl pid = none →
        Onehop.output_lines [((e1, e2), [pid])] pl
          = [e1 ++ "#" ++ e2 ++ "\t" ++ "No Relation"]) := by
  constructor
  · intro e1 e2 p pl el h1 h2 h3 h4 h5 h6 h7
    simp [Threehop.output_lines, h1, h2, h3, h4, h5, h6, h7]
  · intro e1 e2 pid pl h
    simp [Onehop.output_lines, h, pyJoin]

/-- Witness for C5 with empty resolved maps. -/
theorem C5_fallback_amended_witness :
    Threehop.output_lines [(("Q10", "Q20"), [p8])] [] []
      = ["Q10#Q20\tP1#QX#P2#QY#P3#QZ#P4"]
      ∧ Onehop.output_lines [(("Q5", "Q6"), ["P279"])] []
          = ["Q5#Q6\tNo Relation"] := by
  constructor
  · rw [C5_fallback_amended.1 "Q10" "Q20" p8 [] [] rfl rfl rfl rfl rfl rfl rfl]
    decide
  · rw [C5_fallback_amended.2 "Q5" "Q6" "P279" [] rfl]
    decide

/-- C7, confirmed: in both variants the aggregation loop yields a
PathGroup whose key list is the distinct entity pairs in first-seen
order, and whose value for every pair that occurs is the full arrival-
order list of that pair's bindings — duplicates included, so a pair with
N bindings holds exactly N entries. -/
theorem C7_aggregation_order :
    (∀ bs : List Onehop.SparqlBinding1,
        pkeys (pyGroup Onehop.key1 Onehop.prop1 bs) = firstSeen (bs.map Onehop.key1))
    ∧ (∀ (bs : List Onehop.SparqlBinding1) (p : String × String),
        p ∈ bs.map Onehop.key1 →
          pget (pyGroup Onehop.key1 Onehop.prop1 bs) p
            = some ((bs.filter (fun b => Onehop.key1 b = p)).map Onehop.prop1))
    ∧ (∀ bs : List Threehop.SparqlBinding4,
        pkeys (pyGroup Threehop.key4 Threehop.path4 bs) = firstSeen (bs.map Threehop.key4))
    ∧ (∀ (bs : List Threehop.SparqlBinding4) (p : String × String),
        p ∈ bs.map Threehop.key4 →
          pget (pyGroup Threehop.key4 Threehop.path4 bs) p
            = some ((bs.filter (fun b => Threehop.key4 b = p)).map Threehop.path4)) :=
  ⟨fun bs => pyGroup_keys _ _ bs,
   fun bs p h => pyGroup_get_of_mem _ _ bs p h,
   fun bs => pyGroup_keys _ _ bs,
   fun bs p h => pyGroup_get_of_mem _ _ bs p h⟩

/-- Witness for C7: two identical bindings for the pair (Q1, Q2) are both
kept, in arrival order. -/
theorem C7_aggregation_order_witness :
    pget (pyGroup Onehop.key1 Onehop.prop1 [b1, b1]) ("Q1", "Q2") = some ["P31", "P31"] := by
  rw [C7_aggregation_order.2.1 [b1, b1] ("Q1", "Q2") (by decide)]
  decide

/-- C8, confirmed: every intermediate-entity value stored by the 4-hop
aggregation is the raw binding value normalized by keeping the trailing
URI segment, truncating at the first '-', and uppercasing; on the spec
scenario binding (pair (Q10, Q20), chain P1, Qx, P2, Qy, P3, Qz, P4 with
statement suffixes) the stored path is P1, QX, P2, QY, P3, QZ, P4, and
the deduplicated entity codes handed to the resolver are QX, QY, QZ. -/
theorem C8_normalization :
    (∀ (bs : List Threehop.SparqlBinding4)
        (kv : (String × String) × List Threehop.PathBinding4)
        (p : Threehop.PathBinding4),
      kv ∈ pyGroup Threehop.key4 Threehop.path4 bs → p ∈ kv.2 →
      ∃ b ∈ bs,
        p.intermediate_x = pyUpper ((pySplit (lastSegment (b.x.getD "")) '-').headD "")
        ∧ p.intermediate_y = pyUpper ((pySplit (lastSegment (b.y.getD "")) '-').headD "")
        ∧ p.intermediate_z = pyUpper ((pySplit (lastSegment (b.z.getD "")) '-').headD ""))
    ∧ pyGroup Threehop.key4 Threehop.path4 [b8] = [(("Q10", "Q20"), [p8])]
    ∧ Threehop.unique_entities (pyGroup Threehop.key4 Threehop.path4 [b8])
        = ["QX", "QY", "QZ"] := by
  refine ⟨?_, by decide, by decide⟩
  intro bs kv p hkv hp
  rcases pyGroup_entry_val Threehop.key4 Threehop.path4 bs [] kv hkv p hp with
    ⟨b, hb, he⟩ | ⟨kv0, h0, _⟩
  · exact ⟨b, hb, by rw [he]; exact ⟨rfl, rfl, rfl⟩⟩
  · simp at h0

/-- Witness for C8 at the spec scenario binding. -/
theorem C8_normalization_witness :
    (Threehop.path4 b8).intermediate_x
      = pyUpper ((pySplit (lastSegment (b8.x.getD "")) '-').headD "") := by
  obtain ⟨b, hb, hx, hy, hz⟩ := C8_normalization.1 [b8] (("Q10", "Q20"), [Threehop.path4 b8])
    (Threehop.path4 b8) (by decide) (by decide)
  have hb8 : b = b8 := by simpa using hb
  subst hb8
  exact hx

/-- C2, counterexample: the 1-hop driver slices the non-deduplicated
relation-code list into resolver sub-batches, so a relation appearing for
two pairs occurs in two distinct sub-batches (here P31, with sub-batch
size 1). -/
theorem C2_counterexample :
    labelChunks (Onehop.all_property_ids erX) 1 = [["P31"], ["P31"]]
      ∧ ¬ (labelChunks (Onehop.all_property_ids erX) 1).Pairwise
            (fun a b => ∀ c ∈ a, c ∉ b) := by
  refine ⟨by decide, ?_⟩
  intro h
  rw [show labelChunks (Onehop.all_property_ids erX) 1 = [["P31"], ["P31"]] from by decide] at h
  exact (List.pairwise_cons.mp h).1 ["P31"] (by decide) "P31" (by decide) (by decide)

/-- C2, amended: in the 4-hop variant every relation and intermediate-
entity code of every aggregated path is contained in some resolver
sub-batch, and the sub-batches (slices of the deduplicated code lists)
are pairwise disjoint; in the 1-hop variant every relation code is still
contained in some sub-batch, but the sub-batches slice the full,
non-deduplicated code list, so a repeated code can occur in more than
one sub-batch. -/
theorem C2_dedup_amended :
    (∀ (er : List ((String × String) × List Threehop.PathBinding4)) (lbs : Nat), 0 < lbs →
      (∀ p ∈ Threehop.pathBindings er,
          p.relation1 ∈ (labelChunks (Threehop.unique_relations er) lbs).flatten
        ∧ p.relation2 ∈ (labelChunks (Threehop.unique_relations er) lbs).flatten
        ∧ p.relation3 ∈ (labelChunks (Threehop.unique_relations er) lbs).flatten
        ∧ p.relation4 ∈ (labelChunks (Threehop.unique_relations er) lbs).flatten
        ∧ p.intermediate_x ∈ (labelChunks (Threehop.unique_entities er) lbs).flatten
        ∧ p.intermediate_y ∈ (labelChunks (Threehop.unique_entities er) lbs).flatten
        ∧ p.intermediate_z ∈ (labelChunks (Threehop.unique_entities er) lbs).flatten)
      ∧ (labelChunks (Threehop.unique_relations er) lbs).Pairwise (fun a b => ∀ c ∈ a, c ∉ b)
      ∧ (labelChunks (Threehop.unique_entities er) lbs).Pairwise (fun a b => ∀ c ∈ a, c ∉ b))
    ∧ (∀ (er : List ((String × String) × List String)) (lbs : Nat), 0 < lbs →
        ∀ kv ∈ er, ∀ pid ∈ kv.2,
          pid ∈ (labelChunks (Onehop.all_property_ids er) lbs).flatten) := by
  constructor
  · intro er lbs hlbs
    have hrel : (labelChunks (Threehop.unique_relations er) lbs).flatten
        = Threehop.unique_relations er := labelChunks_flatten _ _ hlbs
    have hent : (labelChunks (Threehop.unique_entities er) lbs).flatten
        = Threehop.unique_entities er := labelChunks_flatten _ _ hlbs
    refine ⟨?_, ?_, ?_⟩
    · intro p hp
      rw [hrel, hent, Threehop.unique_relations, Threehop.unique_entities]
      refine ⟨(mem_firstSeen _ _).mpr ?_, (mem_firstSeen _ _).mpr ?_,
        (mem_firstSeen _ _).mpr ?_, (mem_firstSeen _ _).mpr ?_,
        (mem_firstSeen _ _).mpr ?_, (mem_firstSeen _ _).mpr ?_,
        (mem_firstSeen _ _).mpr ?_⟩
      · exact List.mem_append_left _ (List.mem_append_left _
          (List.mem_append_left _ (List.mem_map_of_mem _ hp)))
      · exact List.mem_append_left _ (List.mem_append_left _
          (List.mem_append_right _ (List.mem_map_of_mem _ hp)))
      · exact List.mem_append_left _ (List.mem_append_right _ (List.mem_map_of_mem _ hp))
      · exact List.mem_append_right _ (List.mem_map_of_mem _ hp)
      · exact List.mem_append_left _ (List.mem_append_left _ (List.mem_map_of_mem _ hp))
      · exact List.mem_append_left _ (List.mem_append_right _ (List.mem_map_of_mem _ hp))
      · exact List.mem_append_right _ (List.mem_map_of_mem _ hp)
    · refine nodup_flatten_pairwise _ ?_
      rw [hrel]
      exact nodup_firstSeen _
    · refine nodup_flatten_pairwise _ ?_
      rw [hent]
      exact nodup_firstSeen _
  · intro er lbs hlbs kv hkv pid hpid
    rw [labelChunks_flatten _ _ hlbs, Onehop.all_property_ids]
    exact List.mem_flatMap.mpr ⟨kv, hkv, hpid⟩

/-- Witness for C2 at concrete inputs. -/
theorem C2_dedup_amended_witness :
    (labelChunks (Threehop.unique_relations (pyGroup Threehop.key4 Threehop.path4 [b8])) 10).Pairwise
        (fun a b => ∀ c ∈ a, c ∉ b)
      ∧ "P31" ∈ (labelChunks (Onehop.all_property_ids erX) 1).flatten :=
  ⟨(C2_dedup_amended.1 (pyGroup Threehop.key4 Threehop.path4 [b8]) 10 (by decide)).2.1,
   C2_dedup_amended.2 erX 1 (by decide) (("Q1", "Q2"), ["P31"]) (by decide) "P31" (by decide)⟩

/-- C6, confirmed: in both variants, when the graph query for a batch
returns null (non-success status), the driver appends no output lines for
that batch, records the query request, the 5-second back-pressure sleep
and the unconditional 1.5-second pause, and continues with the remaining
batches — the failed batch index is consumed and never retried. -/
theorem C6_null_batch_skip :
    (∀ (ep : List (List String)) (bs lbs : Nat) (sp : Nat → Option Onehop.SparqlResult1)
        (lk : List String → LabelResponse) (i : Nat) (rest : List Nat)
        (out : List String) (evs : List Event) (c : String),
      sp i = none → values_clause ((ep.drop (i * bs)).take bs) = some c →
        Onehop.run_batches ep bs lbs sp lk (i :: rest) out evs
          = Onehop.run_batches ep bs lbs sp lk rest out
              (evs ++ [Event.sparqlRequest c, Event.sleep 50, Event.sleep 15]))
    ∧ (∀ (ep : List (List String)) (bs lbs : Nat) (sp : Nat → Option Threehop.SparqlResult4)
        (lk : List String → LabelResponse) (i : Nat) (rest : List Nat)
        (out : List String) (evs : List Event) (c : String),
      sp i = none → values_clause ((ep.drop (i * bs)).take bs) = some c →
        Threehop.run_batches ep bs lbs sp lk (i :: rest) out evs
          = Threehop.run_batches ep bs lbs sp lk rest out
              (evs ++ [Event.sparqlRequest c, Event.sleep 50, Event.sleep 15])) :=
  ⟨fun ep bs lbs sp lk i rest out evs c hsp hvc =>
      Onehop.run_batches_null_skip1 ep bs lbs sp lk i rest out evs c hsp hvc,
   fun ep bs lbs sp lk i rest out evs c hsp hvc =>
      Threehop.run_batches_null_skip4 ep bs lbs sp lk i rest out evs c hsp hvc⟩

/-- Witness for C6 at a concrete failing batch. -/
theorem C6_null_batch_skip_witness :
    Onehop.run_batches [["Q1", "Q2"]] 120 40 spNone1 lookup500 [0] [] []
      = Onehop.run_batches [["Q1", "Q2"]] 120 40 spNone1 lookup500 [] []
          ([] ++ [Event.sparqlRequest "(wd:Q1 wd:Q2)", Event.sleep 50, Event.sleep 15])
      ∧ Threehop.run_batches [["Q1", "Q2"]] 10 10 spNone4 lookup500 [0] [] []
          = Threehop.run_batches [["Q1", "Q2"]] 10 10 spNone4 lookup500 [] []
              ([] ++ [Event.sparqlRequest "(wd:Q1 wd:Q2)", Event.sleep 50, Event.sleep 15]) :=
  ⟨C6_null_batch_skip.1 [["Q1", "Q2"]] 120 40 spNone1 lookup500 0 [] [] []
      "(wd:Q1 wd:Q2)" rfl (by decide),
   C6_null_batch_skip.2 [["Q1", "Q2"]] 10 10 spNone4 lookup500 0 [] [] []
      "(wd:Q1 wd:Q2)" rfl (by decide)⟩

/-- C9, confirmed: both drivers only append to the output artifact — the
result of a run over existing contents is those contents followed by the
lines of a run over an empty artifact — so running twice over identical
input with identical remote responses keeps the first run's lines intact
and exactly doubles the line count. -/
theorem C9_append_doubles (lines out0 : List String) (bs lbs : Nat)
    (sp1 : Nat → Option Onehop.SparqlResult1) (sp4 : Nat → Option Threehop.SparqlResult4)
    (lk : List String → LabelResponse) (_hbs : 0 < bs) (_hlbs : 0 < lbs) :
    ((Onehop.process_entity_pairs lines out0 bs lbs sp1 lk).output
        = out0 ++ (Onehop.process_entity_pairs lines [] bs lbs sp1 lk).output)
      ∧ (Onehop.process_entity_pairs lines
            (Onehop.process_entity_pairs lines [] bs lbs sp1 lk).output
            bs lbs sp1 lk).output.length
          = 2 * (Onehop.process_entity_pairs lines [] bs lbs sp1 lk).output.length
      ∧ ((Threehop.process_entity_pairs lines out0 bs lbs sp4 lk).output
          = out0 ++ (Threehop.process_entity_pairs lines [] bs lbs sp4 lk).output)
      ∧ (Threehop.process_entity_pairs lines
            (Threehop.process_entity_pairs lines [] bs lbs sp4 lk).output
            bs lbs sp4 lk).output.length
          = 2 * (Threehop.process_entity_pairs lines [] bs lbs sp4 lk).output.length := by
  refine ⟨Onehop.process_entity_pairs_output1 lines out0 bs lbs sp1 lk, ?_,
    Threehop.process_entity_pairs_output4 lines out0 bs lbs sp4 lk, ?_⟩
  · rw [Onehop.process_entity_pairs_output1 lines _ bs lbs sp1 lk, List.length_append]
    omega
  · rw [Threehop.process_entity_pairs_output4 lines _ bs lbs sp4 lk, List.length_append]
    omega

/-- Witness for C9 on the round-trip scenario input. -/
theorem C9_append_doubles_witness :
    (Onehop.process_entity_pairs ["Q1\tQ2", "Q3\tQ4"]
        (Onehop.process_entity_pairs ["Q1\tQ2", "Q3\tQ4"] [] 120 40 sparqlC1 lookupC1).output
        120 40 sparqlC1 lookupC1).output.length
      = 2 * (Onehop.process_entity_pairs ["Q1\tQ2", "Q3\tQ4"] []
              120 40 sparqlC1 lookupC1).output.length :=
  (C9_append_doubles ["Q1\tQ2", "Q3\tQ4"] [] 120 40 sparqlC1 spNone4 lookupC1
    (by decide) (by decide)).2.1

/-- C10, confirmed: the drivers are only total for input files whose
lines all strip-and-split on tab into exactly two fields — whenever some
line does not (with a positive pair-batch size, so that every line
belongs to a batch), the run of either variant ends crashed by an
uncaught exception; and in either variant, as soon as the current batch
contains a pair without exactly two fields, the run stops with the
output and the event trace exactly as they were before the batch — in
particular no network request for that batch is issued, the exception
being raised while the VALUES clause is built. -/
theorem C10_two_fields_total :
    (∀ (lines out0 : List String) (bs lbs : Nat) (sp1 : Nat → Option Onehop.SparqlResult1)
        (sp4 : Nat → Option Threehop.SparqlResult4) (lk : List String → LabelResponse),
      0 < bs → (∃ l ∈ lines, (pySplit (pyStrip l) '\t').length ≠ 2) →
        (Onehop.process_entity_pairs lines out0 bs lbs sp1 lk).crashed = true
          ∧ (Threehop.process_entity_pairs lines out0 bs lbs sp4 lk).crashed = true)
    ∧ (∀ (ep : List (List String)) (bs lbs : Nat) (sp : Nat → Option Onehop.SparqlResult1)
        (lk : List String → LabelResponse) (i : Nat) (rest : List Nat)
        (out : List String) (evs : List Event),
      (∃ p ∈ (ep.drop (i * bs)).take bs, p.length ≠ 2) →
        Onehop.run_batches ep bs lbs sp lk (i :: rest) out evs
          = { output := out, events := evs, crashed := true })
    ∧ (∀ (ep : List (List String)) (bs lbs : Nat) (sp : Nat → Option Threehop.SparqlResult4)
        (lk : List String → LabelResponse) (i : Nat) (rest : List Nat)
        (out : List String) (evs : List Event),
      (∃ p ∈ (ep.drop (i * bs)).take bs, p.length ≠ 2) →
        Threehop.run_batches ep bs lbs sp lk (i :: rest) out evs
          = { output := out, events := evs, crashed := true }) := by
  refine ⟨?_, ?_, ?_⟩
  · intro lines out0 bs lbs sp1 sp4 lk hbs hbad
    obtain ⟨l, hl, hlen⟩ := hbad
    have hp : pySplit (pyStrip l) '\t' ∈ read_entity_pairs lines :=
      List.mem_map_of_mem _ hl
    have hp2 : pySplit (pyStrip l) '\t'
        ∈ (labelChunks (read_entity_pairs lines) bs).flatten := by
      rw [labelChunks_flatten _ _ hbs]
      exact hp
    obtain ⟨chunk, hchunk, hpc⟩ := List.mem_flatten.mp hp2
    obtain ⟨i, hi, rfl⟩ := List.mem_map.mp hchunk
    constructor
    · exact Onehop.run_batches_crashed_of_bad1 _ _ _ _ _ _ _ _
        ⟨i, hi, pySplit (pyStrip l) '\t', hpc, hlen⟩
    · exact Threehop.run_batches_crashed_of_bad4 _ _ _ _ _ _ _ _
        ⟨i, hi, pySplit (pyStrip l) '\t', hpc, hlen⟩
  · intro ep bs lbs sp lk i rest out evs hbad
    exact Onehop.run_batches_crash1 ep bs lbs sp lk i rest out evs hbad
  · intro ep bs lbs sp lk i rest out evs hbad
    exact Threehop.run_batches_crash4 ep bs lbs sp lk i rest out evs hbad

/-- Witness for C10: a one-column line crashes both drivers, and stops a
run before any event for its batch. -/
theorem C10_two_fields_total_witness :
    ((Onehop.process_entity_pairs ["Q1\tQ2", "Q3"] [] 120 40 spNone1 lookup500).crashed = true
        ∧ (Threehop.process_entity_pairs ["Q1\tQ2", "Q3"] [] 120 40 spNone4 lookup500).crashed
            = true)
      ∧ Onehop.run_batches [["Q1"]] 120 40 spNone1 lookup500 [0] [] []
          = { output := [], events := [], crashed := true } :=
  ⟨C10_two_fields_total.1 ["Q1\tQ2", "Q3"] [] 120 40 spNone1 spNone4 lookup500 (by decide)
      ⟨"Q3", by decide, by decide⟩,
   C10_two_fields_total.2.1 [["Q1"]] 120 40 spNone1 lookup500 0 [] [] []
     ⟨["Q1"], by decide, by decide⟩⟩

/-- C1, counterexample: on the round-trip scenario (pairs (Q1, Q2) and
(Q3, Q4), one mocked binding Q1→Q2 via P31, P31 resolving to
"instance of"), the 1-hop driver never writes the line
"Q3#Q4<TAB>No Relation" — pairs without bindings get no line at all. -/
theorem C1_counterexample :
    "Q3#Q4\tNo Relation"
      ∉ (Onehop.process_entity_pairs ["Q1\tQ2", "Q3\tQ4"] []
          120 40 sparqlC1 lookupC1).output := by
  decide

/-- C1, amended: on the round-trip scenario the output gains exactly the
single line "Q1#Q2<TAB>instance of"; the second pair, having no binding
in the query result, produces no output line. -/
theorem C1_roundtrip_amended :
    (Onehop.process_entity_pairs ["Q1\tQ2", "Q3\tQ4"] [] 120 40 sparqlC1 lookupC1).output
      = ["Q1#Q2\tinstance of"]
      ∧ (Onehop.process_entity_pairs ["Q1\tQ2", "Q3\tQ4"] [] 120 40 sparqlC1 lookupC1).crashed
          = false := by
  exact ⟨by decide, by decide⟩
